import Mathlib

/-!
Shallow embedding of the interview backend of the Voice-Based Mock-Interview
Agent repository (src/backend/app): the JSON extraction used by
`generate_questions` (src/backend/app/api/interview.py), `evaluate_answer`
(src/backend/app/services/evaluation.py) and `summary`
(src/backend/app/api/interview.py), and the session state machine of
src/backend/app/api/interview.py.  Text is modelled as `List Char`;
Python's `json.loads` is modelled by `jsonParse`; the two regular
expressions used for extraction are modelled by the executable matchers
`fenceSearch` (pattern three backticks, optional "json", whitespace, a
lazily matched bracketed group, whitespace, three backticks, with DOTALL)
and `rawSpan` (pattern open-bracket, greedy dot-star, close-bracket, with
DOTALL).
-/

/-- The backtick character, written by code point. -/
def btick : Char := '\x60'

/-- JSON whitespace as accepted by Python's `json.loads` between tokens. -/
def jWs (c : Char) : Bool :=
  c = ' ' || c = '\t' || c = '\n' || c = '\r'

/-- Whitespace of the regex class backslash-s for the ASCII range, as used by
Python's `re` module (space, tab, newline, carriage return, form feed,
vertical tab). -/
def pyWs (c : Char) : Bool :=
  c = ' ' || c = '\t' || c = '\n' || c = '\r' || c = '\x0c' || c = '\x0b'

/-- Strip a literal character sequence from the front of a list. -/
def dropPre : List Char → List Char → Option (List Char)
  | [], l => some l
  | _ :: _, [] => none
  | p :: ps, c :: cs => if c = p then dropPre ps cs else none

/-- Index of the first occurrence of a character. -/
def firstIdx (c : Char) : List Char → Option Nat
  | [] => none
  | x :: t => if x = c then some 0 else (firstIdx c t).map (· + 1)

/-- Index of the last occurrence of a character. -/
def lastIdx (c : Char) (s : List Char) : Option Nat :=
  match firstIdx c s.reverse with
  | none => none
  | some k => some (s.length - 1 - k)

/-!
## JSON values and a model of Python's `json.loads`

Numbers are kept as their source token (`json.loads` converts them to
`int`/`float`; no claim in scope depends on numeric normalisation of the
parsed value, so the token form is a faithful injective image).  The parser
is fuel-indexed single recursion; `jsonParse` supplies ample fuel.
-/

inductive Json where
  | null : Json
  | bool (b : Bool) : Json
  | num (tok : List Char) : Json
  | str (s : List Char) : Json
  | arr (xs : List Json) : Json
  | obj (fields : List (List Char × Json)) : Json

/-- Digit test for JSON number tokens. -/
def jDigit (c : Char) : Bool := '0' ≤ c && c ≤ '9'

/-- Valid JSON exponent part: optional sign then one or more digits. -/
def expDigits (l : List Char) : Bool :=
  let l' := match l with
    | '+' :: t => t
    | '-' :: t => t
    | t => t
  decide (l' ≠ []) && l'.all jDigit

/-- Valid JSON fraction-and-exponent tail of a number token. -/
def fracExpTail (l : List Char) : Bool :=
  match l with
  | [] => true
  | '.' :: t =>
      let ds := t.takeWhile jDigit
      let r := t.dropWhile jDigit
      decide (ds ≠ []) &&
        (match r with
         | [] => true
         | 'e' :: u => expDigits u
         | 'E' :: u => expDigits u
         | _ => false)
  | 'e' :: t => expDigits t
  | 'E' :: t => expDigits t
  | _ => false

/-- Valid unsigned JSON number body: `0` or a nonzero-led digit string, then
an optional fraction and exponent. -/
def numBody (l : List Char) : Bool :=
  match l with
  | '0' :: t => fracExpTail t
  | c :: _ =>
      (jDigit c) &&
        (let t := l.dropWhile jDigit
         fracExpTail t)
  | [] => false

/-- Valid JSON number token (with optional leading minus), per the grammar
`json.loads` accepts for numbers. -/
def isNumTok (l : List Char) : Bool :=
  match l with
  | '-' :: t => numBody t
  | t => numBody t

/-- Characters that may continue a number token scan. -/
def numChar (c : Char) : Bool :=
  jDigit c || c = '-' || c = '+' || c = '.' || c = 'e' || c = 'E'

/-- Hexadecimal digit value, by code point range (0-9, a-f, A-F). -/
def hexVal (c : Char) : Option Nat :=
  let n := c.toNat
  if 48 ≤ n ∧ n ≤ 57 then some (n - 48)
  else if 97 ≤ n ∧ n ≤ 102 then some (n - 87)
  else if 65 ≤ n ∧ n ≤ 70 then some (n - 55)
  else none

/-- Decode four hex digits. -/
def hex4 : List Char → Option (Nat × List Char)
  | a :: b :: c :: d :: r =>
      match hexVal a, hexVal b, hexVal c, hexVal d with
      | some x, some y, some z, some w => some (((x * 16 + y) * 16 + z) * 16 + w, r)
      | _, _, _, _ => none
  | _ => none

/-- Parser modes: one JSON value, the items of an array after its opening
bracket, the fields of an object after its opening brace, or the contents of
a string after its opening quote. -/
inductive PM where
  | val : PM
  | arrItems (acc : List Json) : PM
  | objItems (acc : List (List Char × Json)) : PM
  | strM (acc : List Char) : PM

/-- One fuel-indexed parsing step; models the recursive descent of
`json.loads` (strict mode: control characters in strings are refused,
`NaN`/`Infinity`/`-Infinity` are accepted as number-like constants).
A lone UTF-16 surrogate escape is refused (Python would produce a lone
surrogate, which `Char` cannot represent). -/
def pstep : Nat → PM → List Char → Option (Json × List Char)
  | 0, _, _ => none
  | Nat.succ fuel, PM.val, l =>
    match l.dropWhile jWs with
    | [] => none
    | c :: rest =>
      if c = '\x7b' then
        match rest.dropWhile jWs with
        | '\x7d' :: r => some (Json.obj [], r)
        | _ => pstep fuel (PM.objItems []) rest
      else if c = '[' then
        match rest.dropWhile jWs with
        | ']' :: r => some (Json.arr [], r)
        | _ => pstep fuel (PM.arrItems []) rest
      else if c = '"' then
        pstep fuel (PM.strM []) rest
      else if c = 't' then
        (dropPre ("rue".data) rest).map (fun r => (Json.bool true, r))
      else if c = 'f' then
        (dropPre ("alse".data) rest).map (fun r => (Json.bool false, r))
      else if c = 'n' then
        (dropPre ("ull".data) rest).map (fun r => (Json.null, r))
      else if c = 'N' then
        (dropPre ("aN".data) rest).map (fun r => (Json.num ("NaN".data), r))
      else if c = 'I' then
        (dropPre ("nfinity".data) rest).map
          (fun r => (Json.num ("Infinity".data), r))
      else if c = '-' && (match rest with | 'I' :: _ => true | _ => false) then
        (dropPre ("Infinity".data) rest).map
          (fun r => (Json.num ("-Infinity".data), r))
      else if numChar c then
        let tok := (c :: rest).takeWhile numChar
        let r := (c :: rest).dropWhile numChar
        if isNumTok tok then some (Json.num tok, r) else none
      else none
  | Nat.succ fuel, PM.arrItems acc, l =>
    match pstep fuel PM.val l with
    | none => none
    | some (v, r1) =>
      match r1.dropWhile jWs with
      | ',' :: r2 => pstep fuel (PM.arrItems (acc ++ [v])) r2
      | ']' :: r2 => some (Json.arr (acc ++ [v]), r2)
      | _ => none
  | Nat.succ fuel, PM.objItems acc, l =>
    match l.dropWhile jWs with
    | '"' :: r0 =>
      match pstep fuel (PM.strM []) r0 with
      | some (Json.str k, r1) =>
        (match r1.dropWhile jWs with
         | ':' :: r2 =>
           match pstep fuel PM.val r2 with
           | some (v, r3) =>
             (match r3.dropWhile jWs with
              | ',' :: r4 => pstep fuel (PM.objItems (acc ++ [(k, v)])) r4
              | '\x7d' :: r4 => some (Json.obj (acc ++ [(k, v)]), r4)
              | _ => none)
           | none => none
         | _ => none)
      | _ => none
    | _ => none
  | Nat.succ fuel, PM.strM acc, l =>
    match l with
    | [] => none
    | '"' :: r => some (Json.str acc, r)
    | '\\' :: e :: r =>
      (match e with
       | '"' => pstep fuel (PM.strM (acc ++ ['"'])) r
       | '\\' => pstep fuel (PM.strM (acc ++ ['\\'])) r
       | '/' => pstep fuel (PM.strM (acc ++ ['/'])) r
       | 'b' => pstep fuel (PM.strM (acc ++ ['\x08'])) r
       | 'f' => pstep fuel (PM.strM (acc ++ ['\x0c'])) r
       | 'n' => pstep fuel (PM.strM (acc ++ ['\n'])) r
       | 'r' => pstep fuel (PM.strM (acc ++ ['\r'])) r
       | 't' => pstep fuel (PM.strM (acc ++ ['\t'])) r
       | 'u' =>
         (match hex4 r with
          | none => none
          | some (n, r1) =>
            if n < 0xd800 then
              pstep fuel (PM.strM (acc ++ [Char.ofNat n])) r1
            else if 0xe000 ≤ n ∧ n < 0x110000 then
              pstep fuel (PM.strM (acc ++ [Char.ofNat n])) r1
            else if n < 0xdc00 then
              -- high surrogate: require a following low-surrogate escape
              (match r1 with
               | '\\' :: 'u' :: r2 =>
                 match hex4 r2 with
                 | some (m, r3) =>
                   if 0xdc00 ≤ m ∧ m < 0xe000 then
                     pstep fuel
                       (PM.strM (acc ++
                         [Char.ofNat (0x10000 + (n - 0xd800) * 0x400 + (m - 0xdc00))])) r3
                   else none
                 | none => none
               | _ => none)
            else none)
       | _ => none)
    | '\\' :: [] => none
    | c :: r =>
      if c.toNat < 0x20 then none
      else pstep fuel (PM.strM (acc ++ [c])) r

/-- Model of `json.loads` on a character list: parse one value with ample
fuel and require only whitespace to remain. -/
def jsonParse (l : List Char) : Option Json :=
  match pstep (4 * l.length + 16) PM.val l with
  | some (v, rest) => if rest.dropWhile jWs = [] then some v else none
  | none => none

/-!
## The extraction step (the two regular expressions of the source)

`generate_questions` prefers a fenced block's captured group, else the
greedy first-open-bracket-to-last-close-bracket span, else it leaves the
raw text unchanged; `evaluate_answer` and `summary` do the same with
braces.  The matchers below follow Python's backtracking for the concrete
patterns of the source: the lazy group stops at the first closing bracket
whose continuation (optional whitespace, then three backticks) matches, the
greedy dot-star runs to the last closing bracket in the text.
-/

/-- The three-backtick fence delimiter. -/
def fence3 : List Char := [btick, btick, btick]

/-- Does the list start with three backticks. -/
def startsFence : List Char → Bool
  | a :: b :: c :: _ => a = btick && b = btick && c = btick
  | _ => false

/-- Scan for the closing bracket of the lazily captured group: the first
position holding `cl` that is followed by optional whitespace and a
three-backtick fence ends the group (Python extends a lazy `.*?` one
character at a time, so earlier closing brackets whose continuation fails
are absorbed into the group). -/
def lazyClose (cl : Char) (acc : List Char) : List Char → Option (List Char)
  | [] => none
  | c :: rest =>
    if c = cl && startsFence (rest.dropWhile pyWs) then some (acc ++ [c])
    else lazyClose cl (acc ++ [c]) rest

/-- After the fence opener (and the optional `json` tag): optional
whitespace, then the opening bracket, then the lazily captured group. -/
def fenceTail (op cl : Char) (l : List Char) : Option (List Char) :=
  match l.dropWhile pyWs with
  | c :: rest => if c = op then lazyClose cl [c] rest else none
  | [] => none

/-- Match the fenced-block pattern anchored at the start of `l`; the
optional `json` tag is tried first, as Python's greedy `(?:json)?` is. -/
def fenceAt (op cl : Char) (l : List Char) : Option (List Char) :=
  match dropPre fence3 l with
  | none => none
  | some l1 =>
    match dropPre ("json".data) l1 with
    | some l2 =>
      match fenceTail op cl l2 with
      | some g => some g
      | none => fenceTail op cl l1
    | none => fenceTail op cl l1

/-- `re.search` of the fenced-block pattern: the match at the earliest
starting position wins. -/
def fenceSearch (op cl : Char) : List Char → Option (List Char)
  | [] => none
  | c :: t =>
    match fenceAt op cl (c :: t) with
    | some g => some g
    | none => fenceSearch op cl t

/-- `re.search` of the greedy bracket pattern with DOTALL: it matches from
the first opening bracket to the last closing bracket of the whole text,
when the latter lies beyond the former. -/
def rawSpan (op cl : Char) (s : List Char) : Option (List Char) :=
  match firstIdx op s, lastIdx cl s with
  | some i, some j => if i < j then some ((s.drop i).take (j + 1 - i)) else none
  | _, _ => none

/-- The extraction step of the source: fenced capture if any, else the
greedy span if any, else the raw text unchanged (the source then feeds
whatever this yields to `json.loads`). -/
def extractSpan (op cl : Char) (s : List Char) : List Char :=
  match fenceSearch op cl s with
  | some g => g
  | none =>
    match rawSpan op cl s with
    | some sp => sp
    | none => s

/-- Array extraction, as in `generate_questions`. -/
def extractArr (s : List Char) : List Char := extractSpan '[' ']' s

/-- Object extraction, as in `evaluate_answer` and `summary`. -/
def extractObj (s : List Char) : List Char := extractSpan '\x7b' '\x7d' s

/-!
## Services: question generation and answer evaluation
-/

/-- The fixed fallback question set of `generate_questions`
(src/backend/app/api/interview.py lines 61-66): three strings, the first
two name-prefixed when a candidate name is present. -/
def fallbackQuestions (role : String) (candidate_name : Option String) : Json :=
  let namePre := match candidate_name with
    | some n => n ++ ", "
    | none => ""
  Json.arr
    [ Json.str ((namePre ++ "Tell me about your experience with " ++ role ++
        " responsibilities.").data),
      Json.str ((namePre ++ "What technical skills do you bring to the " ++ role ++
        " position?").data),
      Json.str ("Describe a challenging project you've worked on.".data) ]

/-- Embedding of `generate_questions` (src/backend/app/api/interview.py,
lines 19-66).  The Text-Generation Gateway's reply is the `response`
parameter (the prompt only feeds the gateway); on a successful strict parse
the parsed value is returned unconditionally, otherwise the fallback set. -/
def generate_questions (role : String) (candidate_name : Option String)
    (response : List Char) : Json :=
  match jsonParse (extractArr response) with
  | some v => v
  | none => fallbackQuestions role candidate_name

/-- The neutral fallback evaluation of `evaluate_answer`
(src/backend/app/services/evaluation.py lines 37-42). -/
def evalFallback : Json :=
  Json.obj
    [ (("relevance").data, Json.num ['5']),
      (("clarity").data, Json.num ['5']),
      (("correctness").data, Json.num ['5']),
      (("feedback").data,
        Json.str ("Unable to evaluate answer properly. Please try again.".data)) ]

/-- Embedding of `evaluate_answer` (src/backend/app/services/evaluation.py
lines 5-42): two parameters, question and answer; the gateway's reply is
the oracle input; the parsed object, or the neutral fallback on parse
failure. -/
def evaluate_answer (question answer : String) (llmReply : List Char) : Json :=
  match jsonParse (extractObj llmReply) with
  | some v => v
  | none => evalFallback

/-- Number of parameters of `evaluate_answer` as defined in
src/backend/app/services/evaluation.py line 5: `(question, answer)`. -/
def evalParamCount : Nat := 2

/-- Number of positional arguments of the call
`evaluate_answer(question, transcript, candidate_name)` at
src/backend/app/api/interview.py line 142. -/
def evalArgCount : Nat := 3

/-!
## The session state machine (src/backend/app/api/interview.py)

A session is one entry of the in-memory `SESSIONS` dict.  The spec's phases
map onto the stored fields: AWAITING_NAME is `awaiting_name = true`,
IN_PROGRESS is `awaiting_name = false` with `index <` number of questions,
COMPLETED is `awaiting_name = false` with `index ≥` number of questions.
Each operation returns its result together with the post-call session
state; an `Err` result models an exception escaping the endpoint (state
changes already written to the session dict before the raise are kept).
-/

/-- One recorded turn of `session["answers"]`: question, transcript and the
evaluation value appended by `submit_answer`. -/
structure Turn where
  question : String
  transcript : String
  evaluation : Json

/-- One session of the `SESSIONS` store. -/
structure Session where
  role : String
  index : Nat
  questions : List String
  answers : List Turn
  awaiting_name : Bool
  candidate_name : Option String

/-- Errors surfacing from an endpoint: the two raised `HTTPException`s and
the Python exceptions that would escape as an internal server error. -/
inductive Err where
  | notFound : Err
  | conflict : Err
  | typeErr : Err
  | indexErr : Err
deriving DecidableEq

/-- Result payload of `submit_answer`: the name-collection response (lines
124-130) or a normal evaluated turn (lines 152-155). -/
inductive AnswerResp where
  | nameCollected (transcript next_q audio_file : String) : AnswerResp
  | answered (transcript : String) (evaluation : Json) : AnswerResp

/-- Result payload of `next_question`: the completion marker or the current
question with its synthesized audio reference. -/
inductive NextResp where
  | completed : NextResp
  | question (q audio_file : String) : NextResp
deriving DecidableEq

/-- The three-field summary object. -/
structure SummaryResp where
  overall_feedback : String
  strengths : String
  improvements : String
deriving DecidableEq

/-- Result payload of `summary`: one of the two fixed/computed objects, or
the parsed gateway reply returned as-is. -/
inductive SummaryOut where
  | fixed (r : SummaryResp) : SummaryOut
  | parsed (v : Json) : SummaryOut

/-- The fresh session written by `start_interview`
(src/backend/app/api/interview.py lines 76-83). -/
def startSession (role : String) : Session :=
  { role := role, index := 0, questions := [], answers := [],
    awaiting_name := true, candidate_name := none }

/-- String-array reading of a generated questions value.  The source stores
whatever `generate_questions` returned and immediately evaluates
`questions[0]`; a value that is not an array of strings either raises there
or produces a non-string question, and in every such case `index` and
`answers` are untouched, which is all the claims in scope depend on.  The
model stores the string list when the value is one, and raises otherwise. -/
def asQuestionList : Json → Option (List String)
  | Json.arr xs =>
      xs.foldr
        (fun j acc =>
          match j, acc with
          | Json.str s, some t => some (String.mk s :: t)
          | _, _ => none)
        (some [])
  | _ => none

/-- Embedding of the body of `submit_answer`
(src/backend/app/api/interview.py lines 98-155) after session lookup and
transcription: `tts` is the Speech-Synthesis Gateway, `genReply` and
`evalReply` the Text-Generation Gateway replies used for question
generation and answer evaluation.  In the non-awaiting branch the source
first checks `idx >= len(questions)` (line 136, Conflict), then calls
`evaluate_answer(question, transcript, candidate_name)` (line 142) — a
three-argument call of the two-parameter function of
src/backend/app/services/evaluation.py, on which Python raises TypeError;
the append and increment of lines 144-150 are modelled behind that arity
check exactly as written. -/
def submit_answer (tts : String → String) (genReply evalReply : List Char)
    (s : Session) (transcript : String) : Except Err AnswerResp × Session :=
  if s.awaiting_name then
    let cname := transcript.trim
    let s1 := { s with candidate_name := some cname, awaiting_name := false }
    match asQuestionList (generate_questions s.role (some cname) genReply) with
    | some qs =>
      let s2 := { s1 with questions := qs }
      match qs with
      | [] => (Except.error Err.indexErr, s2)
      | q0 :: _ =>
        let firstQ := "Thank you, " ++ cname ++ "! " ++ q0
        (Except.ok (AnswerResp.nameCollected transcript firstQ (tts firstQ)), s2)
    | none => (Except.error Err.typeErr, s1)
  else
    if s.questions.length ≤ s.index then
      (Except.error Err.conflict, s)
    else if evalArgCount ≠ evalParamCount then
      (Except.error Err.typeErr, s)
    else
      let question := s.questions.getD s.index ""
      let evaluation := evaluate_answer question transcript evalReply
      let s2 := { s with
        answers := s.answers ++ [⟨question, transcript, evaluation⟩],
        index := s.index + 1 }
      (Except.ok (AnswerResp.answered transcript evaluation), s2)

/-- Embedding of `next_question` (src/backend/app/api/interview.py lines
160-177) after session lookup; the source only reads the session, so the
post-call state is the input state. -/
def next_question (tts : String → String) (s : Session) :
    Except Err NextResp × Session :=
  if s.questions.length ≤ s.index then
    (Except.ok NextResp.completed, s)
  else
    let q := s.questions.getD s.index ""
    (Except.ok (NextResp.question q (tts q)), s)

/-!
## The summary endpoint and its numeric fallback
-/

/-- Python dict lookup on a parsed object's field list: `json.loads` lets a
later duplicate key overwrite an earlier one, so the last binding wins. -/
def objGet (fields : List (List Char × Json)) (k : List Char) : Option Json :=
  (fields.filter (fun p => p.1 == k)).getLast?.map (fun p => p.2)

/-- Digits-only reading of a natural number. -/
def digitsNat (l : List Char) : Option Nat :=
  if decide (l ≠ []) && l.all jDigit then
    some (l.foldl (fun a c => a * 10 + (c.toNat - '0'.toNat)) 0)
  else none

/-- Integer value of a JSON number token with no fraction or exponent: the
shape the source's fallback sums (a non-integer score would make Python sum
floats; a non-number raises — both outside the claims in scope). -/
def tokInt : List Char → Option Int
  | '-' :: t => (digitsNat t).map (fun n => -(n : Int))
  | t => (digitsNat t).map (fun n => (n : Int))

/-- The integer sub-score a turn's evaluation holds for `key`, when it is an
object with an integer number at that key. -/
def scoreOf (t : Turn) (key : String) : Option Int :=
  match t.evaluation with
  | Json.obj fs =>
    match objGet fs key.data with
    | some (Json.num tok) => tokInt tok
    | _ => none
  | _ => none

/-- Sum of one sub-score over all turns, when every turn holds an integer
for it (otherwise the Python generator expression raises). -/
def sumScores (ts : List Turn) (key : String) : Option Int :=
  ts.foldr
    (fun t acc =>
      match scoreOf t key, acc with
      | some v, some a => some (v + a)
      | _, _ => none)
    (some 0)

/-- Round-half-even of the rational p / q (q positive) to an integer, as
Python rounds when formatting (here `/` and `%` are Euclidean division,
which is floor division for a positive divisor). -/
def rndHalfEven (p q : Int) : Int :=
  if 2 * (p % q) < q then p / q
  else if q < 2 * (p % q) then p / q + 1
  else if (p / q) % 2 = 0 then p / q else p / q + 1

/-- Decimal rendering of tenths: the string for the rational m / 10 with
exactly one digit after the point. -/
def tenthStr (m : Int) : String :=
  (if m < 0 then "-" else "") ++ toString (m.natAbs / 10) ++ "." ++
    toString (m.natAbs % 10)

/-- Python's one-decimal format of the rational p / n (n positive): the
value of f-string formatting with one decimal place applied to `p / n`, up
to double-rounding of the intermediate binary float (exact whenever the
quotient has at most one decimal, as in every instance in scope). -/
def dec1 (p : Int) (n : Nat) : String :=
  tenthStr (rndHalfEven (10 * p) (n : Int))

/-- The fixed zero-turns summary object
(src/backend/app/api/interview.py lines 189-194). -/
def noAnswersSummary : SummaryResp :=
  { overall_feedback := "No answers recorded yet.", strengths := "N/A",
    improvements := "N/A" }

/-- The computed fallback summary (lines 244-254): the three average scores
over all turns, one decimal each, in the templated sentence, with fixed
strengths and improvements. -/
def fallbackSummary (n : Nat) (sr sc sk : Int) : SummaryResp :=
  { overall_feedback :=
      "Completed " ++ toString n ++ " questions with average scores: Relevance " ++
        dec1 sr n ++ "/10, Clarity " ++ dec1 sc n ++ "/10, Correctness " ++
        dec1 sk n ++ "/10",
    strengths := "Demonstrated engagement throughout the interview",
    improvements := "Continue practicing to improve scores across all evaluation criteria" }

/-- Whether every turn's evaluation is an object holding the four fields the
source reads while building the interview context (lines 199-205); a
missing field or a non-object evaluation raises before the gateway is
called. -/
def contextReadable (ts : List Turn) : Bool :=
  ts.all fun t =>
    match t.evaluation with
    | Json.obj fs =>
        (objGet fs (("relevance").data)).isSome &&
        (objGet fs (("clarity").data)).isSome &&
        (objGet fs (("correctness").data)).isSome &&
        (objGet fs (("feedback").data)).isSome
    | _ => false

/-- Embedding of `summary` (src/backend/app/api/interview.py lines 183-254)
after session lookup.  The boolean records whether the Text-Generation
Gateway was called during the operation: the zero-turns early return of
lines 189-194 happens before `call_llm`.  On a successful strict parse the
parsed value is returned as-is (line 238); on parse failure the computed
fallback of lines 244-254. -/
def summary (s : Session) (llmReply : List Char) :
    Except Err SummaryOut × Bool :=
  if s.answers.isEmpty then
    (Except.ok (SummaryOut.fixed noAnswersSummary), false)
  else if !contextReadable s.answers then
    (Except.error Err.typeErr, false)
  else
    match jsonParse (extractObj llmReply) with
    | some v => (Except.ok (SummaryOut.parsed v), true)
    | none =>
      match sumScores s.answers "relevance", sumScores s.answers "clarity",
            sumScores s.answers "correctness" with
      | some sr, some sc, some sk =>
          (Except.ok (SummaryOut.fixed
            (fallbackSummary s.answers.length sr sc sk)), true)
      | _, _, _ => (Except.error Err.typeErr, true)

/-!
## Endpoint wrappers over the session store
-/

/-- The in-memory `SESSIONS` store: one binding per interview id (ids are
unique, `uuid4` at creation). -/
abbrev Store := List (String × Session)

/-- Rebind one id's session. -/
def updateS (st : Store) (id : String) (s : Session) : Store :=
  st.map fun p => if p.1 = id then (p.1, s) else p

/-- `submit_answer` endpoint with the lookup of lines 100-101. -/
def submitAnswerEp (tts : String → String) (genReply evalReply : List Char)
    (st : Store) (id : String) (transcript : String) :
    Except Err AnswerResp × Store :=
  match st.lookup id with
  | none => (Except.error Err.notFound, st)
  | some s =>
    let r := submit_answer tts genReply evalReply s transcript
    (r.1, updateS st id r.2)

/-- `next_question` endpoint with the lookup of lines 162-163. -/
def nextQuestionEp (tts : String → String) (st : Store) (id : String) :
    Except Err NextResp × Store :=
  match st.lookup id with
  | none => (Except.error Err.notFound, st)
  | some s =>
    let r := next_question tts s
    (r.1, updateS st id r.2)

/-- `summary` endpoint with the lookup of lines 184-185; the source never
writes the store here, and the boolean again records whether the
Text-Generation Gateway was called. -/
def summaryEp (st : Store) (id : String) (llmReply : List Char) :
    Except Err SummaryOut × Bool :=
  match st.lookup id with
  | none => (Except.error Err.notFound, false)
  | some s => summary s llmReply

/-!
## Lemmas about the extraction step
-/

lemma fenceAt_eq_none {op cl : Char} {l : List Char} (h : l.head? ≠ some btick) :
    fenceAt op cl l = none := by
  cases l with
  | nil => simp [fenceAt, fence3, dropPre]
  | cons c t =>
    have hc : ¬ c = btick := by simpa using h
    simp [fenceAt, fence3, dropPre, hc]

lemma fenceSearch_eq_none {op cl : Char} {s : List Char} (h : btick ∉ s) :
    fenceSearch op cl s = none := by
  induction s with
  | nil => rfl
  | cons c t ih =>
    have hc : ¬ c = btick := fun e => h (by simp [e])
    have ht : btick ∉ t := fun m => h (List.mem_cons_of_mem _ m)
    rw [fenceSearch, fenceAt_eq_none (by simp [hc])]
    exact ih ht

lemma firstIdx_append_of_not_mem {c : Char} {l₁ l₂ : List Char} (h : c ∉ l₁) :
    firstIdx c (l₁ ++ l₂) = (firstIdx c l₂).map (· + l₁.length) := by
  induction l₁ with
  | nil => cases hfi : firstIdx c l₂ <;> simp [hfi]
  | cons a t ih =>
    have ha : ¬ a = c := fun e => h (by simp [e])
    have ht : c ∉ t := fun m => h (List.mem_cons_of_mem _ m)
    rw [List.cons_append, firstIdx, if_neg ha, ih ht]
    cases hfi : firstIdx c l₂ <;> simp [hfi] <;> omega

lemma firstIdx_head {c : Char} {l : List Char} (h : l.head? = some c) :
    firstIdx c l = some 0 := by
  cases l with
  | nil => simp at h
  | cons a t =>
    have : a = c := by simpa using h
    simp [firstIdx, this]

lemma ne_nil_of_getLast? {c : Char} {l : List Char} (h : l.getLast? = some c) :
    l ≠ [] := by
  intro e
  rw [e] at h
  simp at h

lemma lastIdx_embed {cl : Char} {pre j post : List Char} (hpost : cl ∉ post)
    (hj : j.getLast? = some cl) :
    lastIdx cl (pre ++ j ++ post) = some (pre.length + j.length - 1) := by
  have hjne : j ≠ [] := ne_nil_of_getLast? hj
  have hjl : 0 < j.length := List.length_pos.mpr hjne
  have hrev : (pre ++ j ++ post).reverse = post.reverse ++ (j.reverse ++ pre.reverse) := by
    simp [List.reverse_append]
  have hnp : cl ∉ post.reverse := by simpa [List.mem_reverse] using hpost
  have hh : (j.reverse ++ pre.reverse).head? = some cl := by
    cases hje : j.reverse with
    | nil => exact absurd (by simpa using hje) hjne
    | cons a t =>
      have : j.reverse.head? = some cl := by
        rw [← List.getLast?_eq_head?_reverse]; exact hj
      simp only [hje] at this ⊢
      simpa using this
  rw [lastIdx, hrev, firstIdx_append_of_not_mem hnp, firstIdx_head hh]
  simp only [Option.map_some']
  show some ((pre ++ j ++ post).length - 1 - (0 + post.reverse.length)) =
    some (pre.length + j.length - 1)
  simp only [List.length_append, List.length_reverse, Option.some.injEq]
  omega

lemma two_le_length {op cl : Char} {j : List Char} (hh : j.head? = some op)
    (hl : j.getLast? = some cl) (hne : op ≠ cl) : 2 ≤ j.length := by
  cases j with
  | nil => simp at hh
  | cons a t =>
    cases t with
    | nil =>
      have h1 : a = op := by simpa using hh
      have h2 : a = cl := by simpa [List.getLast?] using hl
      exact absurd (h1 ▸ h2) hne
    | cons b u => simp [List.length_cons]

lemma rawSpan_embed {op cl : Char} {pre j post : List Char}
    (hop : op ∉ pre) (hcl : cl ∉ post)
    (hh : j.head? = some op) (hl : j.getLast? = some cl) (hne : op ≠ cl) :
    rawSpan op cl (pre ++ j ++ post) = some j := by
  have hj2 : 2 ≤ j.length := two_le_length hh hl hne
  have hfi : firstIdx op (pre ++ j ++ post) = some pre.length := by
    rw [List.append_assoc, firstIdx_append_of_not_mem hop,
      firstIdx_head (by cases j with
        | nil => simp at hh
        | cons a t => simpa using hh)]
    simp
  have hli : lastIdx cl (pre ++ j ++ post) = some (pre.length + j.length - 1) :=
    lastIdx_embed hcl hl
  rw [rawSpan, hfi, hli]
  have hlt : pre.length < pre.length + j.length - 1 := by omega
  show (if pre.length < pre.length + j.length - 1 then
      some (List.take (pre.length + j.length - 1 + 1 - pre.length)
        (List.drop pre.length (pre ++ j ++ post)))
    else none) = some j
  rw [if_pos hlt]
  have hidx : pre.length + j.length - 1 + 1 - pre.length = j.length := by omega
  rw [hidx]
  have hdrop : (pre ++ j ++ post).drop pre.length = j ++ post := by
    rw [List.append_assoc]
    exact List.drop_left pre (j ++ post)
  rw [hdrop, List.take_left]

lemma extractSpan_embed {op cl : Char} {pre j post : List Char}
    (hb : btick ∉ pre ++ j ++ post)
    (hop : op ∉ pre) (hcl : cl ∉ post)
    (hh : j.head? = some op) (hl : j.getLast? = some cl) (hne : op ≠ cl) :
    extractSpan op cl (pre ++ j ++ post) = j := by
  rw [extractSpan, fenceSearch_eq_none hb, rawSpan_embed hop hcl hh hl hne]

/-- A fenced gateway reply whose block content is exactly `j` on its own
line, with or without the `json` language tag. -/
def fenceWrap (tag : Bool) (j : List Char) : List Char :=
  fence3 ++ (if tag then ("json").data else []) ++ ('\n' :: (j ++ '\n' :: fence3))

lemma dropPre_self_append : ∀ p l : List Char, dropPre p (p ++ l) = some l := by
  intro p
  induction p with
  | nil => intro l; rfl
  | cons c t ih => intro l; simp [dropPre, ih]

lemma startsFence_false {l : List Char} {d : Char} (h : l.head? = some d)
    (hd : d ≠ btick) : startsFence l = false := by
  cases l with
  | nil => simp at h
  | cons a t =>
    have ha : a = d := by simpa using h
    subst ha
    match t with
    | [] => rfl
    | [_] => rfl
    | _ :: _ :: _ => simp [startsFence, hd]

lemma lazyClose_exact {cl : Char} (hcw : pyWs cl = false) :
    ∀ jt acc : List Char, btick ∉ jt → jt.getLast? = some cl →
      lazyClose cl acc (jt ++ '\n' :: fence3) = some (acc ++ jt) := by
  intro jt
  induction jt with
  | nil => intro acc _ hl; simp at hl
  | cons c t ih =>
    intro acc hb hl
    have hcb : c ≠ btick := fun e => hb (by simp [e])
    have htb : btick ∉ t := fun m => hb (List.mem_cons_of_mem _ m)
    cases t with
    | nil =>
      have hc : c = cl := by simpa [List.getLast?] using hl
      subst hc
      rw [List.cons_append, List.nil_append, lazyClose]
      have hws : ('\n' :: fence3).dropWhile pyWs = fence3 := by
        simp [List.dropWhile_cons, fence3, pyWs, btick]
      rw [hws]
      simp [startsFence, fence3]
    | cons b u =>
      rw [List.getLast?_cons_cons] at hl
      have hcl_mem : cl ∈ b :: u := by
        have hrh : (b :: u).reverse.head? = some cl := by
          rw [← List.getLast?_eq_head?_reverse]; exact hl
        cases hrev : (b :: u).reverse with
        | nil => simp [hrev] at hrh
        | cons x y =>
          have hx : x = cl := by simpa [hrev] using hrh
          subst hx
          exact List.mem_reverse.mp (hrev ▸ List.mem_cons_self _ _)
      have hnotnil : (b :: u).dropWhile pyWs ≠ [] := by
        intro hnil
        rw [List.dropWhile_eq_nil_iff] at hnil
        exact absurd (hnil cl hcl_mem) (by simp [hcw])
      rw [List.cons_append, lazyClose]
      have hdw : ((b :: u) ++ '\n' :: fence3).dropWhile pyWs =
          ((b :: u).dropWhile pyWs) ++ '\n' :: fence3 := by
        rw [List.dropWhile_append]
        simp [List.isEmpty_iff, hnotnil]
      have hsf : startsFence (((b :: u) ++ '\n' :: fence3).dropWhile pyWs) = false := by
        rw [hdw]
        cases hdrop : (b :: u).dropWhile pyWs with
        | nil => exact absurd hdrop hnotnil
        | cons d r =>
          have hdmem : d ∈ b :: u :=
            (List.dropWhile_sublist pyWs).subset (hdrop ▸ List.mem_cons_self _ _)
          have hdb : d ≠ btick := fun e => htb (e ▸ hdmem)
          exact startsFence_false (by simp) hdb
      rw [hsf]
      simp only [Bool.and_false, Bool.false_eq_true, if_false]
      rw [ih (acc ++ [c]) htb hl]
      simp

lemma fenceSearch_of_at {op cl : Char} {s g : List Char}
    (h : fenceAt op cl s = some g) : fenceSearch op cl s = some g := by
  cases s with
  | nil => simp [fenceAt, fence3, dropPre] at h
  | cons c t => rw [fenceSearch, h]

lemma fenceSearch_wrap {op cl : Char} (hopw : pyWs op = false)
    (hcw : pyWs cl = false) (hne : op ≠ cl) (tag : Bool) {j : List Char}
    (hb : btick ∉ j) (hh : j.head? = some op) (hl : j.getLast? = some cl) :
    fenceSearch op cl (fenceWrap tag j) = some j := by
  cases j with
  | nil => simp at hh
  | cons a t =>
    have ha : a = op := by simpa using hh
    subst ha
    cases t with
    | nil =>
      have hac : a = cl := by simpa [List.getLast?] using hl
      exact absurd hac hne
    | cons b u =>
      rw [List.getLast?_cons_cons] at hl
      have htb : btick ∉ b :: u := fun m => hb (List.mem_cons_of_mem _ m)
      apply fenceSearch_of_at
      have htail : fenceTail a cl ('\n' :: ((a :: b :: u) ++ '\n' :: fence3)) =
          some (a :: b :: u) := by
        rw [fenceTail]
        have hdw : (('\n' :: ((a :: b :: u) ++ '\n' :: fence3)).dropWhile pyWs) =
            a :: ((b :: u) ++ '\n' :: fence3) := by
          rw [List.dropWhile_cons, if_pos (by simp [pyWs]), List.cons_append,
            List.dropWhile_cons, if_neg (by simp [hopw])]
        rw [hdw]
        show (if a = a then lazyClose cl [a] ((b :: u) ++ '\n' :: fence3)
          else none) = some (a :: b :: u)
        rw [if_pos rfl, lazyClose_exact hcw (b :: u) [a] htb hl]
        simp
      rw [fenceWrap]
      cases tag with
      | true =>
        rw [if_pos rfl, fenceAt, List.append_assoc]
        simp only [dropPre_self_append, htail]
      | false =>
        rw [if_neg (by simp), fenceAt, List.append_nil]
        have hjson : dropPre (("json").data) ('\n' :: ((a :: b :: u) ++ '\n' :: fence3)) =
            none := by
          simp [dropPre]
        simp only [dropPre_self_append, hjson, htail]

/-!
## Lemmas about the state machine
-/

lemma submit_normal_err {tts : String → String} {g e : List Char} {s : Session}
    {t : String} (haw : s.awaiting_name = false)
    (hlt : s.index < s.questions.length) :
    submit_answer tts g e s t = (Except.error Err.typeErr, s) := by
  rw [submit_answer]
  simp [haw, Nat.not_le.mpr hlt, evalArgCount, evalParamCount]

lemma submit_conflict {tts : String → String} {g e : List Char} {s : Session}
    {t : String} (haw : s.awaiting_name = false)
    (hge : s.questions.length ≤ s.index) :
    submit_answer tts g e s t = (Except.error Err.conflict, s) := by
  rw [submit_answer]
  simp [haw, hge]

lemma next_question_state {tts : String → String} {s : Session} :
    (next_question tts s).2 = s := by
  rw [next_question]
  split <;> rfl

lemma lookup_updateS {st : Store} {idt : String} {s s₀ : Session}
    (h : st.lookup idt = some s₀) :
    (updateS st idt s).lookup idt = some s := by
  induction st with
  | nil => simp [List.lookup] at h
  | cons p t ih =>
    obtain ⟨k, v⟩ := p
    by_cases hk : k = idt
    · subst hk
      have hhead : updateS ((k, v) :: t) k s = (k, s) :: updateS t k s := by
        rw [updateS, List.map_cons, if_pos rfl]
        rfl
      rw [hhead, List.lookup_cons]
      simp
    · have h2 : ¬ idt = k := fun e => hk e.symm
      have hbeq : (idt == k) = false := by simp [h2]
      rw [List.lookup_cons, hbeq] at h
      simp only [updateS, List.map_cons, if_neg hk]
      rw [List.lookup_cons, hbeq]
      exact ih h

lemma updateS_idem {st : Store} {idt : String} {s : Session} :
    updateS (updateS st idt s) idt s = updateS st idt s := by
  induction st with
  | nil => rfl
  | cons p t ih =>
    by_cases hk : p.1 = idt
    · simp only [updateS, List.map_cons, if_pos hk] at ih ⊢
      rw [ih]
    · simp only [updateS, List.map_cons, if_neg hk] at ih ⊢
      rw [ih]

/-- One caller-driven operation on an existing session: the three endpoints
that read or write a session, each carrying its oracle inputs (gateway
replies and the speech synthesizer). -/
inductive Op where
  | submitA (tts : String → String) (genReply evalReply : List Char)
      (transcript : String) : Op
  | nextQ (tts : String → String) : Op
  | summarize (llmReply : List Char) : Op

/-- The session state after one operation (`summary` never writes the
session; the other two return their post-call state). -/
def applyOp (s : Session) : Op → Session
  | Op.submitA tts g e t => (submit_answer tts g e s t).2
  | Op.nextQ tts => (next_question tts s).2
  | Op.summarize _ => s

/-- The session state after a sequence of operations. -/
def applyOps (s : Session) : List Op → Session
  | [] => s
  | o :: rest => applyOps (applyOp s o) rest

lemma applyOp_preserves {s : Session} (haw : s.awaiting_name = false)
    (hinv : s.index = s.answers.length) (o : Op) :
    (applyOp s o).awaiting_name = false ∧
      (applyOp s o).index = (applyOp s o).answers.length := by
  cases o with
  | submitA tts g e t =>
    rw [applyOp]
    by_cases hle : s.questions.length ≤ s.index
    · rw [submit_conflict haw hle]
      exact ⟨haw, hinv⟩
    · rw [submit_normal_err haw (Nat.not_le.mp hle)]
      exact ⟨haw, hinv⟩
  | nextQ tts =>
    rw [applyOp, next_question_state]
    exact ⟨haw, hinv⟩
  | summarize r => exact ⟨haw, hinv⟩

lemma rndHalfEven_close {p : Int} {n : Nat} (hn : 0 < n) :
    (2 * (p - rndHalfEven p (n : Int) * (n : Int))).natAbs ≤ n := by
  have hq : (0 : Int) < (n : Int) := by exact_mod_cast hn
  have hr0 : 0 ≤ p % (n : Int) := Int.emod_nonneg p (ne_of_gt hq)
  have hrn : p % (n : Int) < (n : Int) := Int.emod_lt_of_pos p hq
  have heq : (n : Int) * (p / (n : Int)) + p % (n : Int) = p := Int.ediv_add_emod p n
  have hv1 : p - p / (n : Int) * (n : Int) = p % (n : Int) := by
    linear_combination (-1 : Int) * heq
  have hv2 : p - (p / (n : Int) + 1) * (n : Int) = p % (n : Int) - (n : Int) := by
    linear_combination (-1 : Int) * heq
  rw [rndHalfEven]
  by_cases h1 : 2 * (p % (n : Int)) < (n : Int)
  · rw [if_pos h1, hv1]
    omega
  · rw [if_neg h1]
    by_cases h2 : (n : Int) < 2 * (p % (n : Int))
    · rw [if_pos h2, hv2]
      omega
    · rw [if_neg h2]
      by_cases h4 : (p / (n : Int)) % 2 = 0
      · rw [if_pos h4, hv1]
        omega
      · rw [if_neg h4, hv2]
        omega

/-!
## Concrete instances used by witnesses and counterexamples
-/

/-- A fixed speech-synthesis oracle for concrete instances. -/
def ttsW : String → String := fun q => "tts-" ++ q ++ ".mp3"

/-- A concrete in-progress session: name collected, one question pending. -/
def csProg : Session :=
  { role := "Backend Engineer", index := 0, questions := ["Q1"], answers := [],
    awaiting_name := false, candidate_name := some "Alice" }

/-- A concrete completed session: the cursor sits at the end of the
question list. -/
def csDone : Session :=
  { role := "Backend Engineer", index := 1, questions := ["Q1"], answers := [],
    awaiting_name := false, candidate_name := some "Alice" }

/-- A turn whose evaluation is a well-formed integer score object. -/
def mkTurn (q : String) (r c k : Int) : Turn :=
  { question := q, transcript := "answer to " ++ q,
    evaluation := Json.obj
      [ (("relevance").data, Json.num (toString r).data),
        (("clarity").data, Json.num (toString c).data),
        (("correctness").data, Json.num (toString k).data),
        (("feedback").data, Json.str (("ok").data)) ] }

/-- The two-turn session of the numeric-fallback instance: evaluations
(6, 7, 8) and (8, 9, 10). -/
def cs8 : Session :=
  { role := "Backend Engineer", index := 2, questions := ["Q1", "Q2"],
    answers := [mkTurn "Q1" 6 7 8, mkTurn "Q2" 8 9 10],
    awaiting_name := false, candidate_name := some "Alice" }

/-- A session one accepted turn past name collection. -/
def cs2start : Session :=
  { role := "Backend Engineer", index := 1, questions := ["Q1", "Q2"],
    answers := [mkTurn "Q1" 6 7 8], awaiting_name := false,
    candidate_name := some "Alice" }

/-!
## The claims
-/

/-- C1.  The spec says submitAnswer never propagates an error from answer
evaluation.  In the source, `submit_answer` calls
`evaluate_answer(question, transcript, candidate_name)` — three positional
arguments — while `evaluate_answer` is defined with the two parameters
`(question, answer)`, so Python raises TypeError on every normal-flow
submit: for every IN_PROGRESS session with cursor < len(questions), the
call errors out and the Answer Evaluator is never reached. -/
theorem submit_answer_evaluation_raises (tts : String → String)
    (genReply evalReply : List Char) (s : Session) (transcript : String)
    (haw : s.awaiting_name = false) (hlt : s.index < s.questions.length) :
    submit_answer tts genReply evalReply s transcript =
      (Except.error Err.typeErr, s) :=
  submit_normal_err haw hlt

/-- Witness for C1: the concrete in-progress session errors even though the
gateway reply holds a perfectly well-formed evaluation object. -/
theorem submit_answer_evaluation_raises_witness :
    submit_answer ttsW []
      (("\x7b\"relevance\": 9, \"clarity\": 9, \"correctness\": 9, \"feedback\": \"good\"\x7d").data)
      csProg "I built APIs." = (Except.error Err.typeErr, csProg) :=
  submit_answer_evaluation_raises ttsW _ _ csProg "I built APIs." rfl (by decide)

/-- C2.  For every session past name collection, cursor == len(turns) holds
after every operation (submit in either outcome, peeking the next question,
summarising), hence after any sequence of operations; a successful normal
submit appends one turn and increments the cursor together. -/
theorem cursor_equals_turns_after_name (ops : List Op) (s : Session)
    (haw : s.awaiting_name = false) (hinv : s.index = s.answers.length) :
    (applyOps s ops).awaiting_name = false ∧
      (applyOps s ops).index = (applyOps s ops).answers.length := by
  induction ops generalizing s with
  | nil => exact ⟨haw, hinv⟩
  | cons o rest ih =>
    rw [applyOps]
    obtain ⟨h1, h2⟩ := applyOp_preserves haw hinv o
    exact ih (applyOp s o) h1 h2

/-- Witness for C2 at a concrete session and operation sequence. -/
theorem cursor_equals_turns_after_name_witness :
    (applyOps cs2start [Op.nextQ ttsW, Op.submitA ttsW [] [] "my answer",
        Op.summarize []]).awaiting_name = false ∧
      (applyOps cs2start [Op.nextQ ttsW, Op.submitA ttsW [] [] "my answer",
        Op.summarize []]).index =
      (applyOps cs2start [Op.nextQ ttsW, Op.submitA ttsW [] [] "my answer",
        Op.summarize []]).answers.length :=
  cursor_equals_turns_after_name _ cs2start rfl rfl

/-- Counterexample for C3: a gateway reply that is a well-formed JSON
object (here the empty object) parses successfully, and `generate_questions`
returns that non-array value as-is instead of the fixed three-string
fallback set. -/
theorem generate_questions_nonarray_counterexample :
    generate_questions "Backend Engineer" none (("\x7b\x7d").data) =
      Json.obj [] ∧
    generate_questions "Backend Engineer" none (("\x7b\x7d").data) ≠
      fallbackQuestions "Backend Engineer" none := by
  refine ⟨rfl, fun h => ?_⟩
  exact Json.noConfusion h

/-- C3 as amended: when strict parsing of the extracted text fails,
question generation returns the fixed deterministic fallback of exactly
three question strings (name-prefixed when a name is present) and never
propagates an error; but a reply that parses to any JSON value — array or
not — is returned unchanged. -/
theorem generate_questions_fallback_on_parse_failure (role : String)
    (candidate_name : Option String) (response : List Char) :
    (jsonParse (extractArr response) = none →
      generate_questions role candidate_name response =
        fallbackQuestions role candidate_name ∧
      ∃ q1 q2 q3 : List Char, fallbackQuestions role candidate_name =
        Json.arr [Json.str q1, Json.str q2, Json.str q3]) ∧
    (∀ v : Json, jsonParse (extractArr response) = some v →
      generate_questions role candidate_name response = v) := by
  constructor
  · intro hf
    refine ⟨by rw [generate_questions, hf], ?_⟩
    cases candidate_name with
    | none => exact ⟨_, _, _, rfl⟩
    | some n => exact ⟨_, _, _, rfl⟩
  · intro v hv
    rw [generate_questions, hv]

/-- Witness for the amended C3 at a reply with no JSON in it. -/
theorem generate_questions_fallback_on_parse_failure_witness :
    generate_questions "Backend Engineer" (some "Alice")
        (("I cannot produce questions right now.").data) =
      fallbackQuestions "Backend Engineer" (some "Alice") ∧
    ∃ q1 q2 q3 : List Char, fallbackQuestions "Backend Engineer" (some "Alice") =
      Json.arr [Json.str q1, Json.str q2, Json.str q3] :=
  (generate_questions_fallback_on_parse_failure "Backend Engineer"
    (some "Alice") (("I cannot produce questions right now.").data)).1 rfl

/-- Counterexample for C4: the greedy first-bracket-to-last-bracket span is
not the embedded value when the prose holds other bracket characters.  The
prose "Hello [world] " around the well-formed array ["Q1"] makes the
extracted span `[world] ["Q1"]`, which fails strict parse; likewise prose
inside a fenced block ("x[ note" before the array [1,2]) defeats both the
fence pattern and the greedy span.  In both cases extraction does not
recover the embedded value. -/
theorem extractor_roundtrip_counterexample :
    jsonParse (("[\"Q1\"]").data) = some (Json.arr [Json.str (("Q1").data)]) ∧
    jsonParse (extractArr (("Hello [world] [\"Q1\"]").data)) = none ∧
    jsonParse (("[1,2]").data) =
      some (Json.arr [Json.num ['1'], Json.num ['2']]) ∧
    jsonParse (extractArr (("\x60\x60\x60x[ note\n[1,2]\n\x60\x60\x60").data)) =
      none :=
  ⟨rfl, rfl, rfl, rfl⟩

/-- C4 as amended: extraction recovers the exact embedded JSON value when
the surrounding prose holds no backtick, no opening bracket of the value's
kind before it and no closing bracket of that kind after it (arrays for the
question extractor, objects for the evaluation/summary extractor), and when
the value is the sole content of a fenced code block (with or without the
`json` tag). -/
theorem extractor_roundtrip_amended :
    (∀ (pre j post : List Char) (v : Json),
      btick ∉ pre → btick ∉ j → btick ∉ post → '[' ∉ pre → ']' ∉ post →
      j.head? = some '[' → j.getLast? = some ']' → jsonParse j = some v →
      jsonParse (extractArr (pre ++ j ++ post)) = some v) ∧
    (∀ (pre j post : List Char) (v : Json),
      btick ∉ pre → btick ∉ j → btick ∉ post → '\x7b' ∉ pre → '\x7d' ∉ post →
      j.head? = some '\x7b' → j.getLast? = some '\x7d' → jsonParse j = some v →
      jsonParse (extractObj (pre ++ j ++ post)) = some v) ∧
    (∀ (tag : Bool) (j : List Char) (v : Json),
      btick ∉ j → j.head? = some '[' → j.getLast? = some ']' →
      jsonParse j = some v →
      jsonParse (extractArr (fenceWrap tag j)) = some v) ∧
    (∀ (tag : Bool) (j : List Char) (v : Json),
      btick ∉ j → j.head? = some '\x7b' → j.getLast? = some '\x7d' →
      jsonParse j = some v →
      jsonParse (extractObj (fenceWrap tag j)) = some v) := by
  refine ⟨?_, ?_, ?_, ?_⟩
  · intro pre j post v hb1 hb2 hb3 hop hcl hh hl hp
    have hb : btick ∉ pre ++ j ++ post := by
      intro m
      rcases List.mem_append.mp m with m1 | m2
      · rcases List.mem_append.mp m1 with m3 | m4
        · exact hb1 m3
        · exact hb2 m4
      · exact hb3 m2
    rw [extractArr, extractSpan_embed hb hop hcl hh hl (by decide)]
    exact hp
  · intro pre j post v hb1 hb2 hb3 hop hcl hh hl hp
    have hb : btick ∉ pre ++ j ++ post := by
      intro m
      rcases List.mem_append.mp m with m1 | m2
      · rcases List.mem_append.mp m1 with m3 | m4
        · exact hb1 m3
        · exact hb2 m4
      · exact hb3 m2
    rw [extractObj, extractSpan_embed hb hop hcl hh hl (by decide)]
    exact hp
  · intro tag j v hb hh hl hp
    rw [extractArr, extractSpan,
      fenceSearch_wrap (by decide) (by decide) (by decide) tag hb hh hl]
    exact hp
  · intro tag j v hb hh hl hp
    rw [extractObj, extractSpan,
      fenceSearch_wrap (by decide) (by decide) (by decide) tag hb hh hl]
    exact hp

/-- Witness for the amended C4: one prose embedding and one fenced block. -/
theorem extractor_roundtrip_amended_witness :
    jsonParse (extractArr ((("Sure: ").data) ++ (("[\"Q1\", \"Q2\"]").data) ++
        ((" hope that helps.").data))) =
      some (Json.arr [Json.str (("Q1").data), Json.str (("Q2").data)]) ∧
    jsonParse (extractObj (fenceWrap true (("\x7b\"relevance\": 7\x7d").data))) =
      some (Json.obj [(("relevance").data, Json.num ['7'])]) :=
  ⟨extractor_roundtrip_amended.1 (("Sure: ").data) (("[\"Q1\", \"Q2\"]").data)
      ((" hope that helps.").data) _ (by decide) (by decide) (by decide)
      (by decide) (by decide) (by decide) (by decide) rfl,
   extractor_roundtrip_amended.2.2.2 true (("\x7b\"relevance\": 7\x7d").data) _
      (by decide) (by decide) (by decide) rfl⟩

/-- C5.  submitAnswer on a known session whose cursor has reached the end
of the question list (name collection complete) fails with Conflict and
leaves the session — in particular its turns — unchanged in the store. -/
theorem submit_answer_conflict_preserves_turns (tts : String → String)
    (genReply evalReply : List Char) (st : Store) (idt : String) (s : Session)
    (transcript : String) (hs : st.lookup idt = some s)
    (haw : s.awaiting_name = false) (hdone : s.questions.length ≤ s.index) :
    (submitAnswerEp tts genReply evalReply st idt transcript).1 =
      Except.error Err.conflict ∧
    (submitAnswerEp tts genReply evalReply st idt transcript).2.lookup idt =
      some s := by
  have hsub : submit_answer tts genReply evalReply s transcript =
      (Except.error Err.conflict, s) := submit_conflict haw hdone
  have hep : submitAnswerEp tts genReply evalReply st idt transcript =
      (Except.error Err.conflict, updateS st idt s) := by
    rw [submitAnswerEp, hs]
    show ((submit_answer tts genReply evalReply s transcript).1,
      updateS st idt (submit_answer tts genReply evalReply s transcript).2) = _
    rw [hsub]
  rw [hep]
  exact ⟨rfl, lookup_updateS hs⟩

/-- Witness for C5 at a concrete completed session. -/
theorem submit_answer_conflict_preserves_turns_witness :
    (submitAnswerEp ttsW [] [] [("id-1", csDone)] "id-1" "one more answer").1 =
      Except.error Err.conflict ∧
    (submitAnswerEp ttsW [] [] [("id-1", csDone)] "id-1" "one more answer").2.lookup
      "id-1" = some csDone :=
  submit_answer_conflict_preserves_turns ttsW [] [] [("id-1", csDone)] "id-1"
    csDone "one more answer" rfl rfl (by decide)

/-- C6.  The spec says every accepted turn appends exactly one evaluation
record.  Because the call of `evaluate_answer` at interview.py line 142
passes three arguments to a two-parameter function, the normal flow raises
TypeError before the append of lines 144-148: no evaluation record is ever
appended to a session's turns, even when the gateway reply is a well-formed
score object. -/
theorem no_evaluation_record_appended :
    (submit_answer ttsW []
      (("\x7b\"relevance\": 7, \"clarity\": 8, \"correctness\": 9, \"feedback\": \"solid\"\x7d").data)
      csProg "I deployed microservices.").1 = Except.error Err.typeErr ∧
    (submit_answer ttsW []
      (("\x7b\"relevance\": 7, \"clarity\": 8, \"correctness\": 9, \"feedback\": \"solid\"\x7d").data)
      csProg "I deployed microservices.").2.answers = csProg.answers :=
  ⟨rfl, rfl⟩

/-- C7.  summarize on a known session with zero recorded turns returns
exactly the fixed object and the Text-Generation Gateway is not called
(the boolean component records a gateway call). -/
theorem summary_zero_turns_fixed (st : Store) (idt : String) (s : Session)
    (llmReply : List Char) (hs : st.lookup idt = some s)
    (hz : s.answers = []) :
    summaryEp st idt llmReply =
      (Except.ok (SummaryOut.fixed
        { overall_feedback := "No answers recorded yet.", strengths := "N/A",
          improvements := "N/A" }), false) := by
  rw [summaryEp, hs]
  show summary s llmReply = _
  rw [summary, hz]
  rfl

/-- Witness for C7. -/
theorem summary_zero_turns_fixed_witness :
    summaryEp [("id-2", csProg)] "id-2" (("anything at all").data) =
      (Except.ok (SummaryOut.fixed
        { overall_feedback := "No answers recorded yet.", strengths := "N/A",
          improvements := "N/A" }), false) :=
  summary_zero_turns_fixed [("id-2", csProg)] "id-2" csProg
    (("anything at all").data) rfl rfl

/-- C8.  When extraction of the summary reply fails, the fallback overall
feedback reports, for each of the three sub-scores, the arithmetic mean
over all recorded turns rounded to one decimal place: the reported tenths
value m satisfies |m/10 − sum/n| ≤ 1/20, i.e. |2·(10·sum − m·n)| ≤ n; and
on the instance with evaluations (6,7,8) and (8,9,10) the reported averages
are exactly 7.0, 8.0 and 9.0, with the fixed strengths and improvements
text. -/
theorem summary_numeric_fallback_means :
    (∀ (s : Session) (llm : List Char) (sr sc sk : Int),
      s.answers.isEmpty = false →
      contextReadable s.answers = true →
      jsonParse (extractObj llm) = none →
      sumScores s.answers "relevance" = some sr →
      sumScores s.answers "clarity" = some sc →
      sumScores s.answers "correctness" = some sk →
      ∃ mr mc mk : Int,
        summary s llm = (Except.ok (SummaryOut.fixed
          { overall_feedback :=
              "Completed " ++ toString s.answers.length ++
                " questions with average scores: Relevance " ++ tenthStr mr ++
                "/10, Clarity " ++ tenthStr mc ++ "/10, Correctness " ++
                tenthStr mk ++ "/10",
            strengths := "Demonstrated engagement throughout the interview",
            improvements :=
              "Continue practicing to improve scores across all evaluation criteria" }),
          true) ∧
        (2 * (10 * sr - mr * (s.answers.length : Int))).natAbs ≤ s.answers.length ∧
        (2 * (10 * sc - mc * (s.answers.length : Int))).natAbs ≤ s.answers.length ∧
        (2 * (10 * sk - mk * (s.answers.length : Int))).natAbs ≤ s.answers.length) ∧
    summary cs8 (("The summary is as follows.").data) =
      (Except.ok (SummaryOut.fixed
        { overall_feedback :=
            "Completed 2 questions with average scores: Relevance 7.0/10, Clarity 8.0/10, Correctness 9.0/10",
          strengths := "Demonstrated engagement throughout the interview",
          improvements :=
            "Continue practicing to improve scores across all evaluation criteria" }),
        true) := by
  constructor
  · intro s llm sr sc sk hne hctx hfail hr hc hk
    have hn : 0 < s.answers.length := by
      cases hA : s.answers with
      | nil => rw [hA] at hne; simp at hne
      | cons a t => simp [hA]
    refine ⟨rndHalfEven (10 * sr) (s.answers.length : Int),
            rndHalfEven (10 * sc) (s.answers.length : Int),
            rndHalfEven (10 * sk) (s.answers.length : Int),
            ?_, rndHalfEven_close hn, rndHalfEven_close hn, rndHalfEven_close hn⟩
    rw [summary, hne, hctx]
    simp only [Bool.false_eq_true, if_false, Bool.not_true, hfail, hr, hc, hk]
    rfl
  · rfl

/-- Witness for the universal part of C8 at the claim's concrete instance. -/
theorem summary_numeric_fallback_means_witness :
    ∃ mr mc mk : Int,
      summary cs8 (("The summary is as follows.").data) =
        (Except.ok (SummaryOut.fixed
          { overall_feedback :=
              "Completed " ++ toString cs8.answers.length ++
                " questions with average scores: Relevance " ++ tenthStr mr ++
                "/10, Clarity " ++ tenthStr mc ++ "/10, Correctness " ++
                tenthStr mk ++ "/10",
            strengths := "Demonstrated engagement throughout the interview",
            improvements :=
              "Continue practicing to improve scores across all evaluation criteria" }),
          true) ∧
      (2 * (10 * 14 - mr * (cs8.answers.length : Int))).natAbs ≤ cs8.answers.length ∧
      (2 * (10 * 16 - mc * (cs8.answers.length : Int))).natAbs ≤ cs8.answers.length ∧
      (2 * (10 * 18 - mk * (cs8.answers.length : Int))).natAbs ≤ cs8.answers.length :=
  summary_numeric_fallback_means.1 cs8 (("The summary is as follows.").data)
    14 16 18 rfl rfl rfl rfl rfl rfl

/-- C9.  peekNext on a known session mutates nothing (the session found at
the id afterwards is the same record, all fields included), is idempotent,
returns the completion marker when the cursor has passed the question list,
and otherwise returns the current question with its synthesized audio
reference. -/
theorem next_question_pure_and_idempotent (tts : String → String) (st : Store)
    (idt : String) (s : Session) (hs : st.lookup idt = some s) :
    (nextQuestionEp tts st idt).2.lookup idt = some s ∧
    nextQuestionEp tts (nextQuestionEp tts st idt).2 idt =
      nextQuestionEp tts st idt ∧
    (s.questions.length ≤ s.index →
      (nextQuestionEp tts st idt).1 = Except.ok NextResp.completed) ∧
    (s.index < s.questions.length →
      (nextQuestionEp tts st idt).1 = Except.ok (NextResp.question
        (s.questions.getD s.index "") (tts (s.questions.getD s.index "")))) := by
  have hep : nextQuestionEp tts st idt =
      ((next_question tts s).1, updateS st idt s) := by
    rw [nextQuestionEp, hs]
    show ((next_question tts s).1, updateS st idt (next_question tts s).2) = _
    rw [next_question_state]
  have hs2 : (updateS st idt s).lookup idt = some s := lookup_updateS hs
  have hep2 : nextQuestionEp tts (updateS st idt s) idt =
      ((next_question tts s).1, updateS (updateS st idt s) idt s) := by
    rw [nextQuestionEp, hs2]
    show ((next_question tts s).1,
      updateS (updateS st idt s) idt (next_question tts s).2) = _
    rw [next_question_state]
  refine ⟨?_, ?_, ?_, ?_⟩
  · rw [hep]; exact hs2
  · simp only [hep, hep2, updateS_idem]
  · intro h
    rw [hep]
    show (next_question tts s).1 = _
    rw [next_question, if_pos h]
  · intro h
    rw [hep]
    show (next_question tts s).1 = _
    rw [next_question, if_neg (Nat.not_le.mpr h)]

/-- Witness for C9 at a concrete in-progress session. -/
theorem next_question_pure_and_idempotent_witness :
    (nextQuestionEp ttsW [("id-2", csProg)] "id-2").2.lookup "id-2" =
      some csProg ∧
    nextQuestionEp ttsW (nextQuestionEp ttsW [("id-2", csProg)] "id-2").2 "id-2" =
      nextQuestionEp ttsW [("id-2", csProg)] "id-2" ∧
    (nextQuestionEp ttsW [("id-2", csProg)] "id-2").1 =
      Except.ok (NextResp.question "Q1" (ttsW "Q1")) := by
  have h := next_question_pure_and_idempotent ttsW [("id-2", csProg)] "id-2"
    csProg rfl
  exact ⟨h.1, h.2.1, h.2.2.2 (by decide)⟩

/-- C10.  A freshly created session is still AWAITING_NAME with an empty
question list and cursor 0, so peekNext's completion test
cursor >= len(questions) holds vacuously: it returns the completion marker
and never the name prompt or any question. -/
theorem fresh_session_next_is_completed (role : String) (tts : String → String) :
    (next_question tts (startSession role)).1 = Except.ok NextResp.completed ∧
    ∀ q audio : String,
      (next_question tts (startSession role)).1 ≠
        Except.ok (NextResp.question q audio) := by
  constructor
  · rfl
  · intro q audio h
    exact NextResp.noConfusion (Except.ok.inj h)

/-- Witness for C10 at a concrete role. -/
theorem fresh_session_next_is_completed_witness :
    (next_question ttsW (startSession "Backend Engineer")).1 =
      Except.ok NextResp.completed ∧
    (next_question ttsW (startSession "Backend Engineer")).1 ≠
      Except.ok (NextResp.question "Q1" "a.mp3") :=
  ⟨(fresh_session_next_is_completed "Backend Engineer" ttsW).1,
   (fresh_session_next_is_completed "Backend Engineer" ttsW).2 "Q1" "a.mp3"⟩
